import Mathlib

/-!
Shallow embedding of the TabEx tab-explorer popup logic (popup script of the
repository) and verification of its specified properties.  Strings are
modelled as `List Char`; the JS `Map`/object stores are modelled as
association lists with overwrite-on-set semantics; the fallible provider call
is modelled with `Except`.
-/

namespace Tabex

/-! ### Character-list string helpers (JS string operations) -/

/-- Model of JS `String.prototype.toLowerCase` (per-character lowering). -/
def lowerCL (s : List Char) : List Char := s.map Char.toLower

/-- Here `leadsCL sub s` models `s.startsWith(sub)`. -/
def leadsCL : List Char → List Char → Bool
  | [], _ => true
  | _ :: _, [] => false
  | c :: cs, d :: ds => c == d && leadsCL cs ds

/-- Here `includesCL s sub` models `s.includes(sub)` (substring test). -/
def includesCL : List Char → List Char → Bool
  | [], sub => sub.isEmpty
  | c :: rest, sub => leadsCL sub (c :: rest) || includesCL rest sub

/-! ### Data model: enriched tab / window records (output of `getAllTabs`) -/

structure GroupInfo where
  title : List Char
  color : List Char
deriving DecidableEq

structure Tab where
  id : Nat
  title : List Char
  url : List Char
  favIconUrl : List Char
  active : Bool
  pinned : Bool
  groupId : Int
  group : Option GroupInfo
  lastAccessed : Option Nat
  windowId : Nat
deriving DecidableEq

structure Window where
  windowId : Nat
  focused : Bool
  tabs : List Tab
deriving DecidableEq

/-! ### Access-Time Tracker (`tabAccessTimes`, a JS `Map`) -/

abbrev AccessMap := List (Nat × Nat)

/-- Models `tabAccessTimes.set(tabId, timestamp)`: unconditional overwrite. -/
def AccessMap.set (m : AccessMap) (tabId timestamp : Nat) : AccessMap :=
  (tabId, timestamp) :: m.filter (fun p => p.1 != tabId)

/-- Models `tabAccessTimes.get(tabId)`. -/
def AccessMap.get (m : AccessMap) (tabId : Nat) : Option Nat :=
  m.lookup tabId

/-! ### Provider-side records (raw `chrome.windows` / `chrome.tabGroups` data) -/

structure ProvTab where
  id : Nat
  title : List Char
  url : List Char
  favIconUrl : Option (List Char)
  active : Bool
  pinned : Bool
  groupId : Int
deriving DecidableEq

structure ProvGroup where
  id : Int
  title : List Char
  color : List Char
deriving DecidableEq

structure ProvWindow where
  id : Nat
  focused : Bool
  tabs : List ProvTab
deriving DecidableEq

/-- The `chrome.tabGroups.TAB_GROUP_ID_NONE` sentinel. -/
def TAB_GROUP_ID_NONE : Int := -1

/-- The embedded placeholder icon (`DEFAULT_FAVICON`). -/
def DEFAULT_FAVICON : List Char :=
  ("data:image/svg+xml,<svg xmlns=\"http://www.w3.org/2000/svg\" width=\"16\" height=\"16\"><rect width=\"16\" height=\"16\" fill=\"%23ddd\"/></svg>").toList

/-- A character that ends a hostname in a URL. -/
def hostnameEnd (c : Char) : Bool := c == '/' || c == ':' || c == '?' || c == '#'

/-- Chars after the first `"://"` marker, if any. -/
def afterSchemeMarker : List Char → Option (List Char)
  | [] => none
  | c :: rest =>
    if leadsCL (("://").toList) (c :: rest) then some rest.tail.tail
    else afterSchemeMarker rest

/-- Modelled from the spec: the host environment's `URL` constructor (not repo
code) used for icon fallback; a URL parses iff it has a nonempty scheme,
a `"://"` marker and a nonempty hostname, which is the text up to the next
delimiter.  Unparseable addresses yield `none` (the JS code catches the
exception). -/
def extractHostname (url : List Char) : Option (List Char) :=
  match url with
  | [] => none
  | c :: rest =>
    if c == ':' then none
    else
      match afterSchemeMarker (c :: rest) with
      | none => none
      | some tail =>
        let host := tail.takeWhile (fun ch => !hostnameEnd ch)
        if host.isEmpty then none else some host

/-- Models `getFaviconUrl(tab)`: an http(s) icon URL is used verbatim, otherwise the
Google favicon service for the address's hostname, otherwise the placeholder. -/
def getFaviconUrl (t : ProvTab) : List Char :=
  let fav := t.favIconUrl.getD []
  if !fav.isEmpty && leadsCL (("http").toList) fav then fav
  else
    match extractHostname t.url with
    | some host =>
      (("https://www.google.com/s2/favicons?domain=").toList) ++ host ++ (("&sz=16").toList)
    | none => DEFAULT_FAVICON

abbrev GroupMap := List (Int × ProvGroup)

/-- The `groupMap` built once per pass from the provider's group list
(`Map.set`, so a later group with the same id overwrites an earlier one). -/
def buildGroupMap (groups : List ProvGroup) : GroupMap :=
  groups.foldl (fun m g => (g.id, g) :: m.filter (fun p => p.1 != g.id)) []

/-- Models `getAllTabs()`, the Snapshot Aggregator.  The provider call (the two
`chrome` queries) is the `Except` argument; a raised error is caught and
yields `[]`. -/
def getAllTabs (result : Except Unit (List ProvWindow × List ProvGroup))
    (tabAccessTimes : AccessMap) (now : Nat) : List Window :=
  match result with
  | .error _ => []
  | .ok (ws, tabGroups) =>
    let groupMap := buildGroupMap tabGroups
    ws.map (fun w =>
      { windowId := w.id
        focused := w.focused
        tabs := w.tabs.map (fun t =>
          let group := if t.groupId != TAB_GROUP_ID_NONE then groupMap.lookup t.groupId else none
          { id := t.id
            title := if t.title.isEmpty then (("Untitled").toList) else t.title
            url := t.url
            favIconUrl := getFaviconUrl t
            active := t.active
            pinned := t.pinned
            groupId := t.groupId
            group := group.map (fun g =>
              { title := if g.title.isEmpty then (("Unnamed Group").toList) else g.title
                color := g.color })
            lastAccessed :=
              match tabAccessTimes.get t.id with
              | some v => if v != 0 then some v else (if t.active then some now else none)
              | none => if t.active then some now else none
            windowId := w.id }) })

/-! ### Sort Engine (`sortWindows`) -/

/-- Splits a char list at its last `'-'`: `some (before, after)`, or `none`
when there is no dash (modelling `lastIndexOf('-') === -1`). -/
def splitLastDash : List Char → Option (List Char × List Char)
  | [] => none
  | c :: cs =>
    match splitLastDash cs with
    | some (t, d) => some (c :: t, d)
    | none => if c == '-' then some ([], cs) else none

/-- Models `sortBy.substring(0, lastDashIndex)` — the sort type (empty when there is
no dash, as `substring(0, -1)` clamps to the empty string). -/
def sortTypeOf (sortBy : List Char) : List Char :=
  match splitLastDash sortBy with
  | some td => td.1
  | none => []

/-- Models `sortBy.substring(lastDashIndex + 1)` — the direction (the whole string
when there is no dash). -/
def directionOf (sortBy : List Char) : List Char :=
  match splitLastDash sortBy with
  | some td => td.2
  | none => sortBy

/-- The `tab-count` comparator: tab count per direction, then focused first. -/
def tabCountCmp (direction : List Char) (a b : Window) : Int :=
  let countDiff : Int := (a.tabs.length : Int) - (b.tabs.length : Int)
  if countDiff ≠ 0 then (if direction = ("asc").toList then countDiff else -countDiff)
  else if a.focused then -1
  else if b.focused then 1
  else 0

/-- The `focused` comparator: focused first (`asc`) or last (otherwise), then
tab count ascending. -/
def focusedCmp (direction : List Char) (a b : Window) : Int :=
  if direction = ("asc").toList then
    if a.focused && !b.focused then -1
    else if !a.focused && b.focused then 1
    else (a.tabs.length : Int) - (b.tabs.length : Int)
  else
    if a.focused && !b.focused then 1
    else if !a.focused && b.focused then -1
    else (a.tabs.length : Int) - (b.tabs.length : Int)

/-- Modelled from the spec: the host's `localeCompare`, modelled as plain
lexicographic comparison of the (already lower-cased) char lists. -/
def lexCompare : List Char → List Char → Int
  | [], [] => 0
  | [], _ :: _ => -1
  | _ :: _, [] => 1
  | c :: cs, d :: ds => if c < d then -1 else if d < c then 1 else lexCompare cs ds

/-- Models `a.tabs[0]?.title || 'Untitled'`. -/
def firstTabTitle (w : Window) : List Char :=
  match w.tabs with
  | [] => ("Untitled").toList
  | t :: _ => if t.title.isEmpty then ("Untitled").toList else t.title

/-- The `alphabetical` comparator: first tab title, case-insensitive. -/
def alphabeticalCmp (direction : List Char) (a b : Window) : Int :=
  let titleA := lowerCL (firstTabTitle a)
  let titleB := lowerCL (firstTabTitle b)
  let comparison := lexCompare titleA titleB
  if direction = ("asc").toList then comparison else -comparison

/-- Models `t.lastAccessed || 0` (absent, like the falsy `0`, yields `0`). -/
def tabAccessVal (t : Tab) : Nat :=
  match t.lastAccessed with
  | some v => v
  | none => 0

/-- Models `Math.max(...w.tabs.map(t => t.lastAccessed || 0))`; `none` stands for the
`-Infinity` produced by `Math.max()` on a window with no tabs. -/
def maxAccess (w : Window) : Option Nat :=
  w.tabs.foldl (fun acc t =>
    match acc with
    | none => some (tabAccessVal t)
    | some v => some (max v (tabAccessVal t))) none

/-- Comparison `x ≤ y` on access keys extended with `-Infinity` (`none`). -/
def extLe : Option Nat → Option Nat → Bool
  | none, _ => true
  | some _, none => false
  | some x, some y => x ≤ y

/-- The `last-accessed` ordering induced by the JS comparator
`comparison = maxAccessB - maxAccessA; return direction === 'asc' ?
-comparison : comparison` — i.e. the sign test `cmp(a,b) ≤ 0` — stated
directly as a key comparison.  On the extended reals the two agree, the
ECMAScript `SortCompare` rule (a `NaN` comparator result counts as `+0`)
covering the case of two windows with no tabs. -/
def lastAccessedLe (direction : List Char) (a b : Window) : Bool :=
  if direction = ("asc").toList then extLe (maxAccess a) (maxAccess b)
  else extLe (maxAccess b) (maxAccess a)

/-- Models `sortWindows(windows, sortBy)`.  The JS `Array.prototype.sort` (stable
since ES2019) is modelled by `List.mergeSort` on the comparator's sign. -/
def sortWindows (windows : List Window) (sortBy : List Char) : List Window :=
  let sorted := windows
  let sortType := sortTypeOf sortBy
  let direction := directionOf sortBy
  if sortType = ("tab-count").toList then
    sorted.mergeSort (fun a b => decide (tabCountCmp direction a b ≤ 0))
  else if sortType = ("focused").toList then
    sorted.mergeSort (fun a b => decide (focusedCmp direction a b ≤ 0))
  else if sortType = ("alphabetical").toList then
    sorted.mergeSort (fun a b => decide (alphabeticalCmp direction a b ≤ 0))
  else if sortType = ("last-accessed").toList then
    sorted.mergeSort (fun a b => lastAccessedLe direction a b)
  else sorted

/-- The sort key the spec assigns to `last-accessed`: maximum last-accessed
timestamp across the window's tabs, taking `0` for tabs without one. -/
def windowLastAccessKey (w : Window) : Nat :=
  (w.tabs.map tabAccessVal).foldl max 0

/-! ### Search Filter (the inline filtering in `renderTabs`) -/

/-- The per-tab predicate of `renderTabs`: an empty (falsy) query matches
everything, otherwise the lower-cased title or lower-cased url must contain
the (already lower-cased) query. -/
def tabMatches (query : List Char) (t : Tab) : Bool :=
  if query.isEmpty then true
  else includesCL (lowerCL t.title) query || includesCL (lowerCL t.url) query

/-- Models `window.tabs.filter(...)` inside the render loop. -/
def filteredTabsOf (query : List Char) (w : Window) : List Tab :=
  w.tabs.filter (tabMatches query)

/-- The window groups actually rendered: each window paired with its filtered
tab list, windows with an empty filtered list skipped (`if (filteredTabs.length
=== 0) return;`). -/
def renderedEntries (ws : List Window) (query : List Char) : List (Window × List Tab) :=
  (ws.map (fun w => (w, filteredTabsOf query w))).filter (fun p => !p.2.isEmpty)

/-- The `totalTabs` accumulator of the render loop. -/
def totalTabsCount (ws : List Window) (query : List Char) : Nat :=
  ws.foldl (fun acc w =>
    let ft := filteredTabsOf query w
    if ft.isEmpty then acc else acc + ft.length) 0

/-- The `windowCount` recomputation at the end of `renderTabs`. -/
def matchingWindowCount (ws : List Window) (query : List Char) : Nat :=
  (ws.filter (fun w => (filteredTabsOf query w).length > 0)).length

/-- The three outputs of the filtering part of `renderTabs` for a given
(sorted) window list and raw search query (`query = searchQuery.toLowerCase()`
is applied here, once). -/
def filterPipeline (ws : List Window) (searchQuery : List Char) :
    List (Window × List Tab) × Nat × Nat :=
  let query := lowerCL searchQuery
  (renderedEntries ws query, totalTabsCount ws query, matchingWindowCount ws query)

/-! ### Collapse-State Store (`collapsedWindows` and its persistence) -/

abbrev CollapseMap := List (Nat × Bool)

/-- Truthiness of `collapsedWindows[windowId]` (`undefined` is falsy). -/
def isCollapsed (m : CollapseMap) (windowId : Nat) : Bool :=
  (m.lookup windowId).getD false

/-- Models `collapsedWindows[windowId] = !collapsedWindows[windowId]` (property
assignment overwrites). -/
def toggleWindowCollapse (m : CollapseMap) (windowId : Nat) : CollapseMap :=
  (windowId, !(isCollapsed m windowId)) :: m.filter (fun p => p.1 != windowId)

/-- The `chrome.storage.local` slot for `collapsedWindows`; `none` models a
store with nothing saved yet. -/
abbrev CollapseStore := Option CollapseMap

/-- Models `saveCollapsedState()`. -/
def saveCollapsedState (m : CollapseMap) : CollapseStore := some m

/-- Models `loadCollapsedState()`, i.e. `result.collapsedWindows || \x7b\x7d`. -/
def loadCollapsedState (s : CollapseStore) : CollapseMap := s.getD []

/-! ### Live Update Scheduler (the trailing debounce of `debouncedRender`) -/

/-- The quiet period passed to `setTimeout`. -/
def DEBOUNCE_MS : Nat := 300

/-- Firing times of the debounced recomputation for a time-ordered list of
triggering events: each event does `clearTimeout` (cancelling a pending,
not-yet-fired timer) and arms a timer `DEBOUNCE_MS` after itself; a timer
whose deadline precedes the next event fires. -/
def debounceFires : List Nat → List Nat
  | [] => []
  | [e] => [e + DEBOUNCE_MS]
  | e :: e2 :: rest =>
    if e2 < e + DEBOUNCE_MS then debounceFires (e2 :: rest)
    else (e + DEBOUNCE_MS) :: debounceFires (e2 :: rest)

/-! ### Concrete records used by witnesses and the counterexample -/

/-- A bare tab used to build concrete windows for witnesses. -/
def plainTab (n : Nat) : Tab :=
  { id := n, title := [], url := [], favIconUrl := [], active := false,
    pinned := false, groupId := -1, group := none, lastAccessed := none, windowId := 0 }

def winTwoA : Window := { windowId := 1, focused := false, tabs := [plainTab 1, plainTab 2] }

def winTwoB : Window := { windowId := 2, focused := true, tabs := [plainTab 3, plainTab 4] }

def winOne : Window := { windowId := 3, focused := false, tabs := [plainTab 5] }

/-- The concrete tab of the C1 counterexample: title `"docs"`, empty address,
no whitespace in either. -/
def docsTab : Tab :=
  { id := 1, title := ("docs").toList, url := [], favIconUrl := [], active := false,
    pinned := false, groupId := -1, group := none, lastAccessed := none, windowId := 7 }

def docsWindow : Window := { windowId := 7, focused := false, tabs := [docsTab] }

/-! ### Claim theorems -/

/-- C3: the Access-Time Tracker has unconditional-overwrite (last-write-wins)
semantics: after `recordAccess(id, t1); recordAccess(id, t2)` a `get(id)`
returns `t2`, with no condition relating `t1` and `t2`. -/
theorem access_tracker_last_write_wins (m : AccessMap) (id t1 t2 : Nat) :
    ((m.set id t1).set id t2).get id = some t2 := by
  simp [AccessMap.set, AccessMap.get, List.lookup]

/-- C4: if the provider's query raises, the Snapshot Aggregator returns the
empty window list without propagating the error, which is exactly the result
it produces for a legitimately empty browser state. -/
theorem aggregator_error_yields_empty (acc : AccessMap) (now : Nat)
    (e : Unit) (gs : List ProvGroup) :
    getAllTabs (Except.error e) acc now = [] ∧
    getAllTabs (Except.ok ([], gs)) acc now = [] := by
  constructor
  · rfl
  · simp [getAllTabs]

theorem extLe_total (x y : Option Nat) : (extLe x y || extLe y x) = true := by
  cases x <;> cases y <;> simp [extLe]
  omega

theorem extLe_trans {x y z : Option Nat} (h1 : extLe x y = true) (h2 : extLe y z = true) :
    extLe x z = true := by
  cases x <;> cases y <;> cases z <;> simp_all [extLe]
  omega

theorem foldl_optmax_some (l : List Nat) (x : Nat) :
    l.foldl (fun acc v => match acc with
      | none => some v
      | some w => some (max w v)) (some x) = some (l.foldl max x) := by
  induction l generalizing x with
  | nil => rfl
  | cons v l ih => simp only [List.foldl_cons, ih]

theorem maxAccess_eq (w : Window) :
    maxAccess w = match w.tabs.map tabAccessVal with
      | [] => none
      | x :: rest => some (rest.foldl max x) := by
  have h : maxAccess w = (w.tabs.map tabAccessVal).foldl (fun acc v => match acc with
      | none => some v
      | some u => some (max u v)) none := by
    rw [List.foldl_map]
    rfl
  rw [h]
  cases hm : w.tabs.map tabAccessVal with
  | nil => rfl
  | cons x rest => simp only [List.foldl_cons, foldl_optmax_some]

theorem windowLastAccessKey_eq (w : Window) :
    windowLastAccessKey w = match w.tabs.map tabAccessVal with
      | [] => 0
      | x :: rest => rest.foldl max x := by
  unfold windowLastAccessKey
  cases hm : w.tabs.map tabAccessVal with
  | nil => rfl
  | cons x rest => simp only [List.foldl_cons, Nat.zero_max]

theorem extLe_key {a b : Window} (h : extLe (maxAccess b) (maxAccess a) = true) :
    windowLastAccessKey b ≤ windowLastAccessKey a := by
  rw [maxAccess_eq, maxAccess_eq] at h
  rw [windowLastAccessKey_eq, windowLastAccessKey_eq]
  cases ha : a.tabs.map tabAccessVal with
  | nil =>
    cases hb : b.tabs.map tabAccessVal with
    | nil => simp
    | cons y r => simp [ha, hb, extLe] at h
  | cons x r =>
    cases hb : b.tabs.map tabAccessVal with
    | nil => simp
    | cons y s =>
      simp only [ha, hb, extLe] at h
      simpa using h

theorem laLe_desc (a b : Window) :
    lastAccessedLe (("desc").toList) a b = extLe (maxAccess b) (maxAccess a) := rfl

theorem laLe_asc (a b : Window) :
    lastAccessedLe (("asc").toList) a b = extLe (maxAccess a) (maxAccess b) := rfl

/-- C2: `last-accessed-desc` orders windows by the window key — the maximum
last-accessed timestamp across the window's tabs, taking `0` for tabs without
one — from largest to smallest, and `last-accessed-asc` from smallest to
largest; in both directions the output is a permutation of the input. -/
theorem last_accessed_sort_ordered (ws : List Window) :
    (sortWindows ws (("last-accessed-desc").toList)).Pairwise
      (fun a b => windowLastAccessKey b ≤ windowLastAccessKey a) ∧
    (sortWindows ws (("last-accessed-asc").toList)).Pairwise
      (fun a b => windowLastAccessKey a ≤ windowLastAccessKey b) ∧
    (sortWindows ws (("last-accessed-desc").toList)).Perm ws ∧
    (sortWindows ws (("last-accessed-asc").toList)).Perm ws := by
  have hdesc : sortWindows ws (("last-accessed-desc").toList) =
      ws.mergeSort (fun a b => lastAccessedLe (("desc").toList) a b) := rfl
  have hasc : sortWindows ws (("last-accessed-asc").toList) =
      ws.mergeSort (fun a b => lastAccessedLe (("asc").toList) a b) := rfl
  refine ⟨?_, ?_, ?_, ?_⟩
  · rw [hdesc]
    have hs : (ws.mergeSort (fun a b => lastAccessedLe (("desc").toList) a b)).Pairwise
        (fun a b => lastAccessedLe (("desc").toList) a b = true) := by
      refine List.sorted_mergeSort ?_ ?_ ws
      · intro a b c h1 h2
        rw [laLe_desc] at h1 h2 ⊢
        exact extLe_trans h2 h1
      · intro a b
        rw [laLe_desc, laLe_desc, Bool.or_comm]
        exact extLe_total (maxAccess a) (maxAccess b)
    exact hs.imp (fun h => extLe_key ((laLe_desc _ _) ▸ h))
  · rw [hasc]
    have hs : (ws.mergeSort (fun a b => lastAccessedLe (("asc").toList) a b)).Pairwise
        (fun a b => lastAccessedLe (("asc").toList) a b = true) := by
      refine List.sorted_mergeSort ?_ ?_ ws
      · intro a b c h1 h2
        rw [laLe_asc] at h1 h2 ⊢
        exact extLe_trans h1 h2
      · intro a b
        rw [laLe_asc, laLe_asc]
        exact extLe_total (maxAccess a) (maxAccess b)
    exact hs.imp (fun h => extLe_key ((laLe_asc _ _) ▸ h))
  · rw [hdesc]; exact List.mergeSort_perm ws _
  · rw [hasc]; exact List.mergeSort_perm ws _

theorem tcCmp_asc_le (a b : Window) :
    tabCountCmp (("asc").toList) a b ≤ 0 ↔
      (a.tabs.length < b.tabs.length ∨
        (a.tabs.length = b.tabs.length ∧ (b.focused = true → a.focused = true))) := by
  unfold tabCountCmp
  cases hA : a.focused <;> cases hB : b.focused <;> simp [hA, hB] <;> split_ifs <;> omega

theorem tcCmp_desc_le (a b : Window) :
    tabCountCmp (("desc").toList) a b ≤ 0 ↔
      (b.tabs.length < a.tabs.length ∨
        (a.tabs.length = b.tabs.length ∧ (b.focused = true → a.focused = true))) := by
  unfold tabCountCmp
  cases hA : a.focused <;> cases hB : b.focused <;> simp [hA, hB] <;> split_ifs <;> omega

theorem tcProp_asc_trans {a b c : Window}
    (h1 : a.tabs.length < b.tabs.length ∨
      (a.tabs.length = b.tabs.length ∧ (b.focused = true → a.focused = true)))
    (h2 : b.tabs.length < c.tabs.length ∨
      (b.tabs.length = c.tabs.length ∧ (c.focused = true → b.focused = true))) :
    a.tabs.length < c.tabs.length ∨
      (a.tabs.length = c.tabs.length ∧ (c.focused = true → a.focused = true)) := by
  rcases h1 with h1 | ⟨h1e, h1f⟩ <;> rcases h2 with h2 | ⟨h2e, h2f⟩
  · exact Or.inl (by omega)
  · exact Or.inl (by omega)
  · exact Or.inl (by omega)
  · exact Or.inr ⟨by omega, fun hc => h1f (h2f hc)⟩

theorem tcProp_total (a b : Window) :
    (a.tabs.length < b.tabs.length ∨
      (a.tabs.length = b.tabs.length ∧ (b.focused = true → a.focused = true))) ∨
    (b.tabs.length < a.tabs.length ∨
      (b.tabs.length = a.tabs.length ∧ (a.focused = true → b.focused = true))) := by
  rcases Nat.lt_trichotomy a.tabs.length b.tabs.length with h | h | h
  · exact Or.inl (Or.inl h)
  · by_cases ha : a.focused = true
    · exact Or.inl (Or.inr ⟨h, fun _ => ha⟩)
    · exact Or.inr (Or.inr ⟨h.symm, fun haa => absurd haa ha⟩)
  · exact Or.inr (Or.inl h)

theorem tcProp_desc_trans {a b c : Window}
    (h1 : b.tabs.length < a.tabs.length ∨
      (a.tabs.length = b.tabs.length ∧ (b.focused = true → a.focused = true)))
    (h2 : c.tabs.length < b.tabs.length ∨
      (b.tabs.length = c.tabs.length ∧ (c.focused = true → b.focused = true))) :
    c.tabs.length < a.tabs.length ∨
      (a.tabs.length = c.tabs.length ∧ (c.focused = true → a.focused = true)) := by
  rcases h1 with h1 | ⟨h1e, h1f⟩ <;> rcases h2 with h2 | ⟨h2e, h2f⟩
  · exact Or.inl (by omega)
  · exact Or.inl (by omega)
  · exact Or.inl (by omega)
  · exact Or.inr ⟨by omega, fun hc => h1f (h2f hc)⟩

theorem tcProp_desc_total (a b : Window) :
    (b.tabs.length < a.tabs.length ∨
      (a.tabs.length = b.tabs.length ∧ (b.focused = true → a.focused = true))) ∨
    (a.tabs.length < b.tabs.length ∨
      (b.tabs.length = a.tabs.length ∧ (a.focused = true → b.focused = true))) := by
  rcases Nat.lt_trichotomy a.tabs.length b.tabs.length with h | h | h
  · exact Or.inr (Or.inl h)
  · by_cases ha : a.focused = true
    · exact Or.inl (Or.inr ⟨h, fun _ => ha⟩)
    · exact Or.inr (Or.inr ⟨h.symm, fun haa => absurd haa ha⟩)
  · exact Or.inl (Or.inl h)

/-- C5: `tab-count-asc` orders windows by ascending tab count and
`tab-count-desc` by descending tab count; under both directions a window with
the same tab count as a later one is focused whenever the later one is (so a
focused window never follows an unfocused window of equal count); both outputs
are permutations of the input. -/
theorem tab_count_sort_ordered (ws : List Window) :
    (sortWindows ws (("tab-count-asc").toList)).Pairwise
      (fun a b => a.tabs.length ≤ b.tabs.length ∧
        (a.tabs.length = b.tabs.length → (b.focused = true → a.focused = true))) ∧
    (sortWindows ws (("tab-count-desc").toList)).Pairwise
      (fun a b => b.tabs.length ≤ a.tabs.length ∧
        (a.tabs.length = b.tabs.length → (b.focused = true → a.focused = true))) ∧
    (sortWindows ws (("tab-count-asc").toList)).Perm ws ∧
    (sortWindows ws (("tab-count-desc").toList)).Perm ws := by
  have ha : sortWindows ws (("tab-count-asc").toList) =
      ws.mergeSort (fun a b => decide (tabCountCmp (("asc").toList) a b ≤ 0)) := rfl
  have hd : sortWindows ws (("tab-count-desc").toList) =
      ws.mergeSort (fun a b => decide (tabCountCmp (("desc").toList) a b ≤ 0)) := rfl
  refine ⟨?_, ?_, ?_, ?_⟩
  · rw [ha]
    have hs : (ws.mergeSort (fun a b => decide (tabCountCmp (("asc").toList) a b ≤ 0))).Pairwise
        (fun a b => decide (tabCountCmp (("asc").toList) a b ≤ 0) = true) := by
      refine List.sorted_mergeSort ?_ ?_ ws
      · intro a b c h1 h2
        rw [decide_eq_true_iff, tcCmp_asc_le] at h1 h2 ⊢
        exact tcProp_asc_trans h1 h2
      · intro a b
        rw [Bool.or_eq_true, decide_eq_true_iff, decide_eq_true_iff, tcCmp_asc_le, tcCmp_asc_le]
        exact tcProp_total a b
    refine hs.imp ?_
    intro a b h
    rw [decide_eq_true_iff, tcCmp_asc_le] at h
    rcases h with h | ⟨he, hf⟩
    · exact ⟨Nat.le_of_lt h, fun he => absurd he (Nat.ne_of_lt h)⟩
    · exact ⟨Nat.le_of_eq he, fun _ => hf⟩
  · rw [hd]
    have hs : (ws.mergeSort (fun a b => decide (tabCountCmp (("desc").toList) a b ≤ 0))).Pairwise
        (fun a b => decide (tabCountCmp (("desc").toList) a b ≤ 0) = true) := by
      refine List.sorted_mergeSort ?_ ?_ ws
      · intro a b c h1 h2
        rw [decide_eq_true_iff, tcCmp_desc_le] at h1 h2 ⊢
        exact tcProp_desc_trans h1 h2
      · intro a b
        rw [Bool.or_eq_true, decide_eq_true_iff, decide_eq_true_iff, tcCmp_desc_le, tcCmp_desc_le]
        exact tcProp_desc_total a b
    refine hs.imp ?_
    intro a b h
    rw [decide_eq_true_iff, tcCmp_desc_le] at h
    rcases h with h | ⟨he, hf⟩
    · exact ⟨Nat.le_of_lt h, fun he => absurd he.symm (Nat.ne_of_lt h)⟩
    · exact ⟨Nat.le_of_eq he.symm, fun _ => hf⟩
  · rw [ha]; exact List.mergeSort_perm ws _
  · rw [hd]; exact List.mergeSort_perm ws _

/-- Witness for C5 at a concrete window list. -/
theorem tab_count_sort_ordered_witness :
    (sortWindows [winTwoA, winTwoB, winOne] (("tab-count-asc").toList)).Pairwise
      (fun a b => a.tabs.length ≤ b.tabs.length ∧
        (a.tabs.length = b.tabs.length → (b.focused = true → a.focused = true))) ∧
    (sortWindows [winTwoA, winTwoB, winOne] (("tab-count-desc").toList)).Pairwise
      (fun a b => b.tabs.length ≤ a.tabs.length ∧
        (a.tabs.length = b.tabs.length → (b.focused = true → a.focused = true))) :=
  ⟨(tab_count_sort_ordered [winTwoA, winTwoB, winOne]).1,
   (tab_count_sort_ordered [winTwoA, winTwoB, winOne]).2.1⟩

/-- C6: a preference whose sort type (the text before the last dash) is not
one of the four recognized types leaves the window list exactly in input
order, and every preference produces a permutation of the input (the input
itself is never mutated: `sortWindows` is a pure function of it). -/
theorem sort_unrecognized_identity_and_pure (ws : List Window) (p : List Char) :
    (sortTypeOf p ∉ [(("tab-count").toList), (("focused").toList),
      (("alphabetical").toList), (("last-accessed").toList)] → sortWindows ws p = ws) ∧
    (sortWindows ws p).Perm ws := by
  constructor
  · intro h
    simp only [List.mem_cons, List.not_mem_nil, or_false, not_or] at h
    obtain ⟨h1, h2, h3, h4⟩ := h
    unfold sortWindows
    simp only [if_neg h1, if_neg h2, if_neg h3, if_neg h4]
  · unfold sortWindows
    dsimp only
    split_ifs <;> first | exact List.mergeSort_perm ws _ | exact List.Perm.refl ws

/-- Witness for C6: the dash-free preference string `"bogus"` parses to the
empty sort type, which is unrecognized. -/
theorem sort_unrecognized_identity_and_pure_witness :
    sortWindows [winOne, winTwoA] (("bogus").toList) = [winOne, winTwoA] ∧
    (sortWindows [winOne, winTwoA] (("bogus").toList)).Perm [winOne, winTwoA] :=
  ⟨(sort_unrecognized_identity_and_pure [winOne, winTwoA] (("bogus").toList)).1 (by decide),
   (sort_unrecognized_identity_and_pure [winOne, winTwoA] (("bogus").toList)).2⟩

theorem splitLastDash_none {d : List Char} (hd : '-' ∉ d) : splitLastDash d = none := by
  induction d with
  | nil => rfl
  | cons c cs ih =>
    simp only [List.mem_cons, not_or] at hd
    unfold splitLastDash
    rw [ih hd.2]
    have hc : (c == '-') = false := by
      simp only [beq_eq_false_iff_ne, ne_eq]
      exact fun h => hd.1 h.symm
    rw [hc]
    rfl

theorem splitLastDash_append (t d : List Char) (hd : '-' ∉ d) :
    splitLastDash (t ++ '-' :: d) = some (t, d) := by
  induction t with
  | nil =>
    simp only [List.nil_append]
    unfold splitLastDash
    rw [splitLastDash_none hd]
    rfl
  | cons c cs ih =>
    simp only [List.cons_append]
    unfold splitLastDash
    rw [ih]

theorem tabCountCmp_not_asc {d : List Char} (h : d ≠ (("asc").toList)) (a b : Window) :
    tabCountCmp d a b = tabCountCmp (("desc").toList) a b := by
  unfold tabCountCmp
  dsimp only
  rw [if_neg h, if_neg (by decide : ¬ ((("desc").toList : List Char) = ("asc").toList))]

theorem alphabeticalCmp_not_asc {d : List Char} (h : d ≠ (("asc").toList)) (a b : Window) :
    alphabeticalCmp d a b = alphabeticalCmp (("desc").toList) a b := by
  unfold alphabeticalCmp
  dsimp only
  rw [if_neg h, if_neg (by decide : ¬ ((("desc").toList : List Char) = ("asc").toList))]

theorem lastAccessedLe_not_asc {d : List Char} (h : d ≠ (("asc").toList)) (a b : Window) :
    lastAccessedLe d a b = lastAccessedLe (("desc").toList) a b := by
  unfold lastAccessedLe
  rw [if_neg h, if_neg (by decide : ¬ ((("desc").toList : List Char) = ("asc").toList))]

/-- C10 (implicit): for the sort types `tab-count`, `alphabetical` and
`last-accessed`, any dash-free direction segment other than exactly `"asc"`
behaves exactly like `"desc"`. -/
theorem direction_defaults_to_desc (ws : List Window) (t d : List Char)
    (ht : t ∈ [(("tab-count").toList), (("alphabetical").toList), (("last-accessed").toList)])
    (hdash : '-' ∉ d) (hasc : d ≠ (("asc").toList)) :
    sortWindows ws (t ++ '-' :: d) = sortWindows ws (t ++ '-' :: (("desc").toList)) := by
  have hp1 : sortTypeOf (t ++ '-' :: d) = t := by
    unfold sortTypeOf; rw [splitLastDash_append t d hdash]
  have hp2 : directionOf (t ++ '-' :: d) = d := by
    unfold directionOf; rw [splitLastDash_append t d hdash]
  have hq1 : sortTypeOf (t ++ '-' :: (("desc").toList)) = t := by
    unfold sortTypeOf; rw [splitLastDash_append t _ (by decide)]
  have hq2 : directionOf (t ++ '-' :: (("desc").toList)) = (("desc").toList) := by
    unfold directionOf; rw [splitLastDash_append t _ (by decide)]
  unfold sortWindows
  dsimp only
  rw [hp1, hp2, hq1, hq2]
  simp only [List.mem_cons, List.not_mem_nil, or_false] at ht
  rcases ht with ht | ht | ht <;> subst ht
  · rw [if_pos rfl, if_pos rfl]
    congr 1
    funext a b
    rw [tabCountCmp_not_asc hasc]
  · rw [if_neg (by decide), if_neg (by decide), if_pos rfl,
      if_neg (by decide), if_neg (by decide), if_pos rfl]
    congr 1
    funext a b
    rw [alphabeticalCmp_not_asc hasc]
  · rw [if_neg (by decide), if_neg (by decide), if_neg (by decide), if_pos rfl,
      if_neg (by decide), if_neg (by decide), if_neg (by decide), if_pos rfl]
    congr 1
    funext a b
    rw [lastAccessedLe_not_asc hasc]

/-- Witness for C10: direction `"DESC"` acts like `"desc"` for `tab-count`. -/
theorem direction_defaults_to_desc_witness :
    sortWindows [winOne, winTwoA] ((("tab-count").toList) ++ '-' :: (("DESC").toList)) =
    sortWindows [winOne, winTwoA] ((("tab-count").toList) ++ '-' :: (("desc").toList)) :=
  direction_defaults_to_desc [winOne, winTwoA] (("tab-count").toList) (("DESC").toList)
    (by decide) (by decide) (by decide)

theorem totalAux (q : List Char) (ws : List Window) : ∀ (acc : Nat),
    ws.foldl (fun acc w =>
      let ft := filteredTabsOf q w
      if ft.isEmpty then acc else acc + ft.length) acc
      = acc + ((ws.map (fun w => (filteredTabsOf q w).length)).sum) := by
  induction ws with
  | nil => intro acc; simp
  | cons w ws ih =>
    intro acc
    simp only [List.foldl_cons, List.map_cons, List.sum_cons]
    rw [ih]
    by_cases hE : (filteredTabsOf q w).isEmpty
    · have hlen : (filteredTabsOf q w).length = 0 := by
        rw [List.isEmpty_iff] at hE
        simp [hE]
      rw [if_pos hE, hlen]
      omega
    · rw [if_neg hE]
      omega

theorem totalTabsCount_eq (ws : List Window) (q : List Char) :
    totalTabsCount ws q = (ws.map (fun w => (filteredTabsOf q w).length)).sum := by
  unfold totalTabsCount
  rw [totalAux]
  omega

theorem renderedSum (ws : List Window) (q : List Char) :
    ((renderedEntries ws q).map (fun p => p.2.length)).sum
      = (ws.map (fun w => (filteredTabsOf q w).length)).sum := by
  unfold renderedEntries
  induction ws with
  | nil => rfl
  | cons w ws ih =>
    simp only [List.map_cons, List.filter_cons, List.sum_cons]
    by_cases hE : (filteredTabsOf q w).isEmpty
    · have hlen : (filteredTabsOf q w).length = 0 := by
        rw [List.isEmpty_iff] at hE
        simp [hE]
      simp [hE, hlen, ih]
    · simp [hE, ih]

theorem matchingWindowCount_eq (ws : List Window) (q : List Char) :
    matchingWindowCount ws q = (renderedEntries ws q).length := by
  unfold matchingWindowCount renderedEntries
  induction ws with
  | nil => rfl
  | cons w ws ih =>
    simp only [List.filter_cons, List.map_cons]
    by_cases hE : (filteredTabsOf q w).isEmpty
    · have hlen : (filteredTabsOf q w).length = 0 := by
        rw [List.isEmpty_iff] at hE
        simp [hE]
      simp [hE, hlen, ih]
    · have hne : filteredTabsOf q w ≠ [] := by
        intro hnil
        exact hE (by simp [hnil])
      have hpos : 0 < (filteredTabsOf q w).length := List.length_pos.mpr hne
      simp [hE, hpos, ih]

theorem renderedEntries_sound (ws : List Window) (q : List Char) :
    (renderedEntries ws q).all
      (fun p => !p.2.isEmpty && decide (p.1 ∈ ws) && (p.2 == filteredTabsOf q p.1)) = true := by
  rw [List.all_eq_true]
  intro p hp
  unfold renderedEntries at hp
  rw [List.mem_filter] at hp
  obtain ⟨hm, hpred⟩ := hp
  rw [List.mem_map] at hm
  obtain ⟨w, hw, rfl⟩ := hm
  simp only [Bool.and_eq_true]
  exact ⟨⟨hpred, by simp [hw]⟩, by simp⟩

/-- C7: for every window list and query the three outputs of the Search
Filter are mutually consistent: the total matching tab count is the sum of
the rendered windows' filtered tab counts, the matching window count is the
number of rendered windows, and every rendered entry has a nonempty filtered
tab list and consists of an unmodified input window paired with the filter of
its tabs. -/
theorem filter_outputs_consistent (ws : List Window) (searchQuery : List Char) :
    (filterPipeline ws searchQuery).2.1 =
      (((filterPipeline ws searchQuery).1).map (fun p => p.2.length)).sum ∧
    (filterPipeline ws searchQuery).2.2 = ((filterPipeline ws searchQuery).1).length ∧
    ((filterPipeline ws searchQuery).1).all
      (fun p => !p.2.isEmpty && decide (p.1 ∈ ws) &&
        (p.2 == filteredTabsOf (lowerCL searchQuery) p.1)) = true := by
  unfold filterPipeline
  dsimp only
  exact ⟨(totalTabsCount_eq ws (lowerCL searchQuery)).trans
      (renderedSum ws (lowerCL searchQuery)).symm,
    matchingWindowCount_eq ws (lowerCL searchQuery),
    renderedEntries_sound ws (lowerCL searchQuery)⟩

/-- Counterexample to C1 as stated: for the whitespace-only query `" "`
(non-empty, hence truthy in JS) the filter does substring matching, so the
window containing only the tab titled `"docs"` is dropped and the total
matching count is `0`, not the input's total of `1` tab. -/
theorem whitespace_query_filters :
    (filterPipeline [docsWindow] ((" ").toList)).1 = [] ∧
    (filterPipeline [docsWindow] ((" ").toList)).2.1 = 0 ∧
    docsWindow.tabs.length = 1 := by decide

/-- C1 (amended): for the empty query every tab matches: every window (each
having at least one tab) appears in the filtered structure with its full tab
list, and the total tab count equals the total number of input tabs. -/
theorem empty_query_matches_all (ws : List Window) (h : ∀ w ∈ ws, w.tabs ≠ []) :
    (filterPipeline ws []).1 = ws.map (fun w => (w, w.tabs)) ∧
    (filterPipeline ws []).2.1 = (ws.map (fun w => w.tabs.length)).sum ∧
    (filterPipeline ws []).2.2 = ws.length := by
  have hft : ∀ w : Window, filteredTabsOf [] w = w.tabs := by
    intro w
    unfold filteredTabsOf tabMatches
    simp
  unfold filterPipeline
  dsimp only
  have hq : lowerCL [] = [] := rfl
  rw [hq]
  refine ⟨?_, ?_, ?_⟩
  · unfold renderedEntries
    simp only [hft]
    rw [List.filter_eq_self.mpr]
    intro p hp
    rw [List.mem_map] at hp
    obtain ⟨w, hw, rfl⟩ := hp
    simp [h w hw]
  · rw [totalTabsCount_eq]
    simp only [hft]
  · rw [matchingWindowCount_eq, ← matchingWindowCount_eq]
    unfold matchingWindowCount
    rw [List.filter_eq_self.mpr]
    intro w hw
    simp [hft, List.length_pos.mpr (h w hw)]

/-- Witness for the amended C1 at a concrete single-window list. -/
theorem empty_query_matches_all_witness :
    (filterPipeline [docsWindow] []).1 = [(docsWindow, docsWindow.tabs)] ∧
    (filterPipeline [docsWindow] []).2.1 = 1 ∧
    (filterPipeline [docsWindow] []).2.2 = 1 :=
  empty_query_matches_all [docsWindow] (by decide)

/-- C8: for N ≥ 1 triggering events in which each consecutive pair is less
than the quiet period apart, exactly one debounced recomputation fires, and
it fires `DEBOUNCE_MS` after the last event of the sequence (each new event
cancels the pending timer). -/
theorem debounce_single_fire (e : Nat) (es : List Nat)
    (h : List.Chain' (fun a b => a ≤ b ∧ b < a + DEBOUNCE_MS) (e :: es)) :
    debounceFires (e :: es) = [(e :: es).getLast (List.cons_ne_nil e es) + DEBOUNCE_MS] := by
  induction es generalizing e with
  | nil => rfl
  | cons e2 rest ih =>
    have hpair : e ≤ e2 ∧ e2 < e + DEBOUNCE_MS := (List.chain'_cons.mp h).1
    have htail := (List.chain'_cons.mp h).2
    have hstep : debounceFires (e :: e2 :: rest) =
        if e2 < e + DEBOUNCE_MS then debounceFires (e2 :: rest)
        else (e + DEBOUNCE_MS) :: debounceFires (e2 :: rest) := rfl
    rw [hstep, if_pos hpair.2, ih e2 htail, List.getLast_cons (List.cons_ne_nil e2 rest)]

/-- Witness for C8: three events at 0, 100, 250 (gaps 100 and 150, both below
300) produce the single firing time 550 = 250 + 300. -/
theorem debounce_single_fire_witness :
    List.Chain' (fun a b => a ≤ b ∧ b < a + DEBOUNCE_MS) [0, 100, 250] ∧
    debounceFires [0, 100, 250] = [550] :=
  ⟨by simp [List.chain'_cons, DEBOUNCE_MS],
   debounce_single_fire 0 [100, 250] (by simp [List.chain'_cons, DEBOUNCE_MS])⟩

theorem lookup_filter_ne {m : CollapseMap} {W i : Nat} (h : m.lookup W = none) :
    (m.filter (fun p => p.1 != i)).lookup W = none := by
  induction m with
  | nil => rfl
  | cons kv m ih =>
    obtain ⟨k, v⟩ := kv
    by_cases hk : (W == k) = true
    · simp [List.lookup, hk] at h
    · have hk' : (W == k) = false := by simp at hk; simp [hk]
      simp only [List.lookup, hk'] at h
      rw [List.filter_cons]
      by_cases hki : (k != i) = true
      · rw [if_pos hki]
        simp only [List.lookup, hk']
        exact ih h
      · rw [if_neg hki]
        exact ih h

theorem toggle_other_preserves {W : Nat} : ∀ (ids : List Nat), W ∉ ids →
    ∀ (m : CollapseMap), m.lookup W = none →
    (ids.foldl (fun mm i => toggleWindowCollapse mm i) m).lookup W = none := by
  intro ids
  induction ids with
  | nil => intro _ m hm; exact hm
  | cons i rest ih =>
    intro h m hm
    simp only [List.mem_cons, not_or] at h
    rw [List.foldl_cons]
    refine ih h.2 _ ?_
    unfold toggleWindowCollapse
    have hiW : (W == i) = false := by
      simp only [beq_eq_false_iff_ne, ne_eq]
      exact h.1
    simp only [List.lookup, hiW]
    exact lookup_filter_ne hm

/-- C9: a collapse toggle for window W followed by a save and reload of the
collapse-state map yields the negation of W's previous value; a window never
toggled (starting from the empty map) reads back `false`. -/
theorem collapse_toggle_roundtrip (m : CollapseMap) (W : Nat) (ids : List Nat)
    (h : W ∉ ids) :
    isCollapsed (loadCollapsedState (saveCollapsedState (toggleWindowCollapse m W))) W
      = !(isCollapsed m W) ∧
    isCollapsed (ids.foldl (fun mm i => toggleWindowCollapse mm i) []) W = false := by
  constructor
  · unfold loadCollapsedState saveCollapsedState toggleWindowCollapse isCollapsed
    simp [List.lookup]
  · unfold isCollapsed
    rw [toggle_other_preserves ids h [] rfl]
    rfl

/-- Witness for C9: toggling window 5 on the empty map and reloading reads
back `true`; window 5 stays `false` after toggling windows 1 and 2. -/
theorem collapse_toggle_roundtrip_witness :
    isCollapsed (loadCollapsedState (saveCollapsedState (toggleWindowCollapse [] 5))) 5
      = !(isCollapsed [] 5) ∧
    isCollapsed (([1, 2] : List Nat).foldl (fun mm i => toggleWindowCollapse mm i) []) 5
      = false :=
  collapse_toggle_roundtrip [] 5 [1, 2] (by decide)

end Tabex

